import Mathlib

/-!
Verification development for a small task-tracking application: a Redux-style
client store (`src/webapp/src/store.js`) and an Express/Mongo record API
(`src/api/tasks.js`, `src/api/util.js`).

Modelling conventions for the JavaScript source:
* a JS object field that may be present or absent is an `Option`; a field whose
  value may be `null` is an `Option` as well, so a present-but-nullable field
  is an `Option (Option _)` where `none` means "field absent" and `some none`
  means "field present with value null";
* a JS object used as a dictionary (`state.tasks.items`) is a function
  `String → Option Task`; object spread `{...m, [k]: v}` is pointwise update
  and rest-destructuring `{[k]: x, ...rest}` is pointwise removal;
* JS property keys are strings; indexing an object with `undefined` coerces
  the key to the string "undefined".
-/

namespace TaskApp

/-- A task record as held in `state.tasks.items` or received from the API.
All fields are optional because JS objects built by spreads
(`{...undefined, ...edits}`) may lack any of them. -/
structure Task where
  _id : Option String
  text : Option String
  isComplete : Option Bool
  isCreating : Option Bool
deriving DecidableEq, Repr

/-- The JS property key an item is stored under by the `TASKS_RECEIVED`
reducer case (`items[item._id] = item`); an `undefined` id coerces to the
string key "undefined". -/
def keyOf (t : Task) : String := t._id.getD "undefined"

/-- The empty object / `undefined` base of a JS spread. -/
def blankTask : Task := { _id := none, text := none, isComplete := none, isCreating := none }

/-- `fieldOr a b` is the value of a field after the spread `{...x, ...y}`
when `y`'s field is `a` and `x`'s field is `b`: `y` wins when present. -/
def fieldOr {α : Type} : Option α → Option α → Option α
  | some v, _ => some v
  | none, b => b

/-- JS shallow merge `{...task, ...edits}` on task records. -/
def mergeTask (task edits : Task) : Task :=
  { _id := fieldOr edits._id task._id
    text := fieldOr edits.text task.text
    isComplete := fieldOr edits.isComplete task.isComplete
    isCreating := fieldOr edits.isCreating task.isCreating }

/-- The items dictionary `state.tasks.items`. -/
def ItemsMap : Type := String → Option Task

/-- Object spread `{...m, [k]: v}`. -/
def mapInsert (m : ItemsMap) (k : String) (v : Task) : ItemsMap :=
  fun k2 => if k2 = k then some v else m k2

/-- Rest destructuring `const {[k]: dropped, ...rest} = m`. -/
def mapRemove (m : ItemsMap) (k : String) : ItemsMap :=
  fun k2 => if k2 = k then none else m k2

/-- The `state.newTask` region (the draft). -/
structure NewTaskState where
  text : String
deriving DecidableEq, Repr

/-- The `state.tasks` region. `nextPageToken` and `lastErrorMessage` are
present-or-absent fields holding nullable values (see conventions above). -/
structure TasksState where
  status : String
  items : ItemsMap
  nextPageToken : Option (Option String)
  lastErrorMessage : Option (Option String)

/-- The whole store state. -/
structure State where
  newTask : NewTaskState
  tasks : TasksState

/-- The reducer's default state
`{ newTask: { text: "" }, tasks: { status: "UNLOADED", items: {} } }`. -/
def initialState : State :=
  { newTask := { text := "" }
    tasks := { status := "UNLOADED", items := fun _ => none,
               nextPageToken := none, lastErrorMessage := none } }

/-- The actions produced by the action creators in `store.js`, plus a
constructor for any other string-tagged action (the reducer's `default`
case). Message payloads are nullable strings. -/
inductive Action where
  | reloadTasks
  | tasksReceived (items : List Task) (nextPageToken : Option String)
  | tasksLoadingFailed (message : Option String)
  | clearNewTask
  | editNewTaskText (text : String)
  | createNewTask (temporaryId : String)
  | taskCreated (temporaryId : String) (realId : String)
  | taskCreateFailed (temporaryId : String) (message : Option String)
  | editTask (id : String) (edits : Task)
  | deleteTask (id : String)
  | unknown (type : String)

/-- The action type tags the reducer recognizes. -/
def knownTags : List String :=
  ["RELOAD_TASKS", "TASKS_RECEIVED", "TASKS_LOADING_FAILED", "CLEAR_NEW_TASK",
   "EDIT_NEW_TASK_TEXT", "CREATE_NEW_TASK", "TASK_CREATED", "TASK_CREATE_FAILED",
   "EDIT_TASK", "DELETE_TASK"]

/-- The loop body of the `TASKS_RECEIVED` case:
`for (const item of payload.items) { items[item._id] = item }` starting from
a copy of the existing items. -/
def mergeItems (m : ItemsMap) (rcvd : List Task) : ItemsMap :=
  rcvd.foldl (fun acc item => mapInsert acc (keyOf item) item) m

/-- The reducer of `store.js`, case for case. -/
def reducer (state : State) (action : Action) : State :=
  match action with
  | .reloadTasks =>
      { state with tasks := { status := "LOADING", items := fun _ => none,
                              nextPageToken := some none, lastErrorMessage := none } }
  | .tasksReceived rcvd tok =>
      { state with tasks := { status := "LOADED", items := mergeItems state.tasks.items rcvd,
                              nextPageToken := some tok, lastErrorMessage := none } }
  | .tasksLoadingFailed msg =>
      { state with tasks := { state.tasks with status := "ERROR", lastErrorMessage := some msg } }
  | .clearNewTask =>
      { state with newTask := { state.newTask with text := "" } }
  | .editNewTaskText t =>
      { state with newTask := { text := t } }
  | .createNewTask tempId =>
      { state with tasks := { state.tasks with
          items := mapInsert state.tasks.items tempId
            { _id := some tempId, isComplete := some false,
              text := some state.newTask.text, isCreating := some true } } }
  | .taskCreated tempId realId =>
      let localTask := (state.tasks.items tempId).getD blankTask
      let otherItems := mapRemove state.tasks.items tempId
      { state with tasks := { state.tasks with
          items := mapInsert otherItems realId
            { localTask with _id := some realId, isCreating := some false } } }
  | .taskCreateFailed tempId _msg =>
      { state with tasks := { state.tasks with items := mapRemove state.tasks.items tempId } }
  | .editTask id edits =>
      { state with tasks := { state.tasks with
          items := mapInsert state.tasks.items id
            (mergeTask ((state.tasks.items id).getD blankTask) edits) } }
  | .deleteTask id =>
      { state with tasks := { state.tasks with items := mapRemove state.tasks.items id } }
  | .unknown _ => state

/-- Selector `getTasksStatus`. -/
def getTasksStatus (s : State) : String := s.tasks.status

/-- Selector `getNewTaskText`. -/
def getNewTaskText (s : State) : String := s.newTask.text

/-- Replaying an action sequence from the reducer's initial state. -/
def replay (acts : List Action) : State := acts.foldl reducer initialState

/-! ### Effect orchestrator (`loadTasksEpic`)

The epic is modelled as two pure pieces: the synchronous trigger decision it
makes when it observes a `RELOAD_TASKS` action (suppress, or issue one page
fetch), and the follow-up action it dispatches once the fetch settles.
Per the middleware's ordering, the reducer has already processed the action
by the time the epic's projection runs and reads `getState()`. -/

/-- What `loadTasksEpic` does when it observes a `RELOAD_TASKS` action:
either nothing (`emptyObservable()`) or exactly one `fetchFromAPI("/tasks")`. -/
inductive LoadDecision where
  | suppressed
  | fetchPage
deriving DecidableEq, Repr

/-- The `mergeMap` projection of `loadTasksEpic`, as a function of the state
it reads through `getState()` at trigger time. -/
def loadTasksTrigger (s : State) : LoadDecision :=
  if getTasksStatus s = "LOADING" then .suppressed else .fetchPage

/-- The decoded JSON body of a `GET /tasks` response as the epic inspects it:
`items` is `some` exactly when the field is present and `Array.isArray`
returns true; `nextPageToken` is `none` when the field is `undefined` and
`some t` when present (with `t = none` for JSON null). -/
structure LoadBody where
  items : Option (List Task)
  nextPageToken : Option (Option String)

/-- How a `fetchFromAPI("/tasks")` call settles: an HTTP response, or a
rejected promise (network error) with a message. -/
inductive FetchOutcome where
  | response (ok : Bool) (status : Nat) (statusText : String) (body : LoadBody)
  | networkError (message : String)

/-- The message of the error the epic builds for a non-ok response. -/
def httpErrorMessage (statusText : String) (status : Nat) : String :=
  "HTTP Error: " ++ statusText ++ " (" ++ toString status ++ ")"

/-- The follow-up action `loadTasksEpic` dispatches for a settled fetch:
the `then`/`catch` chain of `store.js` lines 205-231. -/
def loadTasksResult : FetchOutcome → Action
  | .networkError msg => .tasksLoadingFailed (some msg)
  | .response ok status statusText body =>
      if ok then
        match body.items with
        | none => .tasksReceived [] none
        | some items =>
          match body.nextPageToken with
          | none => .tasksReceived items none
          | some tok => .tasksReceived items tok
      else .tasksLoadingFailed (some (httpErrorMessage statusText status))

end TaskApp

namespace TaskApi

/-!
### Cursor encoding (`src/api/util.js`)

`idToBase64` hex-decodes a Mongo ObjectID into its 12 raw bytes and encodes
them with url-safe base64 (`urlsafe-base64` strips the `=` padding);
`base64ToId` runs `urlsafeBase64.decode` (replace `-`/`_` by `+`/`/`, append
`=` padding, hand to Node's lenient `Buffer.from(_, "base64")`), renders the
buffer as a lowercase hex string with `toString("hex")`, and passes that
string to the `ObjectID` constructor. The library collaborators are embedded
with their actual behavior: Node's base64 decoder skips characters outside
its table (which covers both the standard and the url-safe alphabet) and
silently drops surplus trailing bits, and the `ObjectID` constructor accepts
a 12-character string as 12 raw bytes or a 24-character hex string as 12
bytes, throwing on any other length.

An ObjectID is its 12-byte content, `List Nat` with each entry `< 256`;
a token is a `List Char`.
-/

/-- The base64url alphabet, in index order. -/
def b64Alphabet : List Char :=
  "ABCDEFGHIJKLMNOPQRSTUVWXYZabcdefghijklmnopqrstuvwxyz0123456789-_".toList

/-- The character for a 6-bit value. -/
def sextetToChar (n : Nat) : Char := b64Alphabet.getD n 'A'

/-- Scan a list for a character, returning its index offset by `i`. -/
def lookupIdx : List Char → Char → Nat → Option Nat
  | [], _, _ => none
  | a :: rest, c, i => if a = c then some i else lookupIdx rest c (i + 1)

/-- The 6-bit value of a base64url character; `none` for characters outside
the alphabet. -/
def charToSextet (c : Char) : Option Nat := lookupIdx b64Alphabet c 0

/-- Bytes to 6-bit groups, RFC 4648 with padding stripped (`urlsafe-base64`
removes the `=` padding the plain encoder would add). -/
def bytesToSextets : List Nat → List Nat
  | a :: b :: c :: rest =>
      (a / 4) :: ((a % 4) * 16 + b / 16) :: ((b % 16) * 4 + c / 64) :: (c % 64)
        :: bytesToSextets rest
  | [a, b] => [a / 4, (a % 4) * 16 + b / 16, (b % 16) * 4]
  | [a] => [a / 4, (a % 4) * 16]
  | [] => []

/-- The 6-bit value Node's base64 decode table assigns to a character, after
`urlsafe-base64` has replaced `-` by `+` and `_` by `/`: both the standard
and the url-safe alphabet decode, every other character — including the `=`
padding `urlsafe-base64` appends — is skipped by the decoder (`none`). -/
def nodeCharValue (c : Char) : Option Nat :=
  if c = '+' then some 62 else if c = '/' then some 63 else charToSextet c

/-- Node `Buffer.from(_, "base64")` on the surviving 6-bit groups: each full
quad yields 3 bytes; a remainder of 3 or 2 characters yields 2 or 1 bytes
with the surplus trailing bits silently dropped; a single leftover character
yields nothing. No validity checks are performed. -/
def lenientSextetsToBytes : List Nat → List Nat
  | w :: x :: y :: z :: rest =>
      (w * 4 + x / 16) :: ((x % 16) * 16 + y / 4) :: ((y % 4) * 64 + z)
        :: lenientSextetsToBytes rest
  | [w, x, y] => [w * 4 + x / 16, (x % 16) * 16 + y / 4]
  | [w, x] => [w * 4 + x / 16]
  | [_] => []
  | [] => []

/-- The lowercase hex digits, in value order (`Buffer.toString("hex")`). -/
def hexDigits : List Char := "0123456789abcdef".toList

/-- `Buffer.toString("hex")`: two lowercase hex digits per byte. -/
def bytesToHex : List Nat → List Char
  | b :: rest => hexDigits.getD (b / 16) '0' :: hexDigits.getD (b % 16) '0' :: bytesToHex rest
  | [] => []

/-- The value of a hex digit. -/
def hexVal (c : Char) : Nat := (lookupIdx hexDigits c 0).getD 0

/-- Hex digit pairs back to bytes (the `ObjectID` constructor's hex
parsing). -/
def hexToBytes : List Char → List Nat
  | h :: l :: rest => (16 * hexVal h + hexVal l) :: hexToBytes rest
  | [_] => []
  | [] => []

/-- Whether a character is a lowercase hex digit (the constructor's hex
regular expression, on `toString("hex")` output). -/
def isHexDigit (c : Char) : Bool := hexDigits.contains c

/-- The `ObjectID` constructor on a string: a 12-character string is taken
as 12 raw bytes (their character codes), a 24-character hex string as 12
bytes, and any other input throws. -/
def objectIdOfString (str : List Char) : Option (List Nat) :=
  if str.length = 12 then some (str.map Char.toNat)
  else if str.length = 24 ∧ str.all isHexDigit = true then some (hexToBytes str)
  else none

/-- `util.js` `idToBase64`: the 12 id bytes, base64url-encoded. -/
def idToBase64 (id : List Nat) : List Char :=
  (bytesToSextets id).map sextetToChar

/-- `util.js` `base64ToId`:
`new ObjectID(urlsafeBase64.decode(base64).toString("hex"))` — lenient
base64 decode of the token, rendered as a hex string, fed to the `ObjectID`
constructor. -/
def base64ToId (s : List Char) : Option (List Nat) :=
  objectIdOfString (bytesToHex (lenientSextetsToBytes (s.filterMap nodeCharValue)))

/-!
### `GET /tasks` page handler (`src/api/tasks.js`)

The handler receives the records matching the query boundary already sorted
by `_id` descending (the `find`/`sort("_id", -1)` collaborator), fetches
`pageSize + 1` of them, answers with the first `pageSize` as `items`, and
encodes the id of the extra record, when present, as `nextPageToken`.
-/

/-- The response computation of the `GET /` handler: from the descending-id
list of matching record ids, the `items` ids and the `nextPageToken`. -/
def pageHandler (pageSize : Nat) (matching : List (List Nat)) :
    List (List Nat) × Option (List Char) :=
  let readTasks := matching.take (pageSize + 1)
  (readTasks.take pageSize, (readTasks.get? pageSize).map idToBase64)

end TaskApi

namespace TaskApp

/-! ### Basic lemmas about the items dictionary -/

theorem mapInsert_self (m : ItemsMap) (k : String) (v : Task) :
    mapInsert m k v k = some v := by
  simp [mapInsert]

theorem mapInsert_other (m : ItemsMap) (k k2 : String) (v : Task) (h : k2 ≠ k) :
    mapInsert m k v k2 = m k2 := by
  simp [mapInsert, h]

theorem mapRemove_self (m : ItemsMap) (k : String) :
    mapRemove m k k = none := by
  simp [mapRemove]

theorem mapRemove_other (m : ItemsMap) (k k2 : String) (h : k2 ≠ k) :
    mapRemove m k k2 = m k2 := by
  simp [mapRemove, h]

theorem fieldOr_none {α : Type} (a : Option α) : fieldOr a none = a := by
  cases a <;> rfl

theorem mergeTask_blank (e : Task) : mergeTask blankTask e = e := by
  cases e
  simp [mergeTask, blankTask, fieldOr_none]

theorem mergeItems_notmem (rcvd : List Task) :
    ∀ (m : ItemsMap) (k : String), k ∉ rcvd.map keyOf → mergeItems m rcvd k = m k := by
  induction rcvd with
  | nil => intro m k _; rfl
  | cons a rest ih =>
    intro m k hk
    rw [List.map_cons, List.mem_cons, not_or] at hk
    rw [show mergeItems m (a :: rest) = mergeItems (mapInsert m (keyOf a) a) rest from rfl]
    rw [ih _ _ hk.2]
    exact mapInsert_other _ _ _ _ hk.1

theorem mergeItems_mem_nodup (rcvd : List Task) :
    ∀ m : ItemsMap, (rcvd.map keyOf).Nodup → ∀ it ∈ rcvd,
      mergeItems m rcvd (keyOf it) = some it := by
  induction rcvd with
  | nil => intro m _ it hit; cases hit
  | cons a rest ih =>
    intro m hnd it hit
    rw [List.map_cons, List.nodup_cons] at hnd
    rw [show mergeItems m (a :: rest) = mergeItems (mapInsert m (keyOf a) a) rest from rfl]
    rcases List.mem_cons.mp hit with h | h
    · subst h
      rw [mergeItems_notmem rest _ _ hnd.1]
      exact mapInsert_self _ _ _
    · exact ih _ hnd.2 it h

/-! ### Claim theorems for the store -/

/-- C1: the claim says a `RELOAD_TASKS` dispatched while the status is
`Loading` is suppressed AND a `RELOAD_TASKS` dispatched while the status is
not `Loading` starts one page fetch, with the epic's guard reading the status
after the reducer has processed the same action. The code violates the second
half: the reducer has already set the status to `"LOADING"` by the time the
guard runs, so the guard suppresses the fetch from every starting state —
including the initial (non-Loading) one. -/
theorem reload_always_suppressed :
    getTasksStatus initialState ≠ "LOADING"
    ∧ ∀ s : State, loadTasksTrigger (reducer s .reloadTasks) = .suppressed := by
  constructor
  · decide
  · intro s
    rfl

/-- C7: `TASKS_LOADING_FAILED` sets the status to `"ERROR"` and stores the
carried (nullable) message in a now-present `lastErrorMessage` field, while
the items dictionary, the `nextPageToken` field and the draft region are
exactly unchanged. -/
theorem load_failure_frame (s : State) (m : Option String) :
    (reducer s (.tasksLoadingFailed m)).tasks.status = "ERROR"
    ∧ (reducer s (.tasksLoadingFailed m)).tasks.lastErrorMessage = some m
    ∧ (reducer s (.tasksLoadingFailed m)).tasks.items = s.tasks.items
    ∧ (reducer s (.tasksLoadingFailed m)).tasks.nextPageToken = s.tasks.nextPageToken
    ∧ (reducer s (.tasksLoadingFailed m)).newTask = s.newTask :=
  ⟨rfl, rfl, rfl, rfl, rfl⟩

/-- C8: on an ok response the dispatched follow-up action is determined by
the body shape — missing/non-array `items` gives `tasksReceived [] null`,
missing `nextPageToken` gives `tasksReceived items null`, and the full shape
gives `tasksReceived items token`; a non-ok status dispatches
`tasksLoadingFailed` with the built HTTP error message, and a network error
dispatches `tasksLoadingFailed` with the error's message. -/
theorem load_response_dispatch :
    (∀ (st : Nat) (stx : String) (tok : Option (Option String)),
      loadTasksResult (.response true st stx ⟨none, tok⟩) = .tasksReceived [] none)
    ∧ (∀ (st : Nat) (stx : String) (items : List Task),
      loadTasksResult (.response true st stx ⟨some items, none⟩) = .tasksReceived items none)
    ∧ (∀ (st : Nat) (stx : String) (items : List Task) (tok : Option String),
      loadTasksResult (.response true st stx ⟨some items, some tok⟩) = .tasksReceived items tok)
    ∧ (∀ (st : Nat) (stx : String) (body : LoadBody),
      loadTasksResult (.response false st stx body) =
        .tasksLoadingFailed (some (httpErrorMessage stx st)))
    ∧ ∀ msg : String,
      loadTasksResult (.networkError msg) = .tasksLoadingFailed (some msg) :=
  ⟨fun _ _ _ => rfl, fun _ _ _ => rfl, fun _ _ _ _ => rfl, fun _ _ _ => rfl, fun _ => rfl⟩

/-- C9: the reducer is a pure total function — an action whose tag is not
one of the recognized tags leaves the state unchanged, and replaying the
same action sequence from the initial state always yields the same final
state. -/
theorem reducer_deterministic_total :
    (∀ (s : State) (tag : String), tag ∉ knownTags → reducer s (.unknown tag) = s)
    ∧ ∀ (acts : List Action) (s1 s2 : State),
        replay acts = s1 → replay acts = s2 → s1 = s2 := by
  constructor
  · intro s tag _
    rfl
  · intro acts s1 s2 h1 h2
    rw [← h1, ← h2]

/-- Witness for C9 at a concrete unrecognized tag and a concrete replay. -/
theorem reducer_deterministic_total_witness :
    reducer initialState (.unknown "NOT_A_TAG") = initialState
    ∧ replay [Action.reloadTasks] = replay [Action.reloadTasks] :=
  ⟨reducer_deterministic_total.1 initialState "NOT_A_TAG" (by decide),
   reducer_deterministic_total.2 [Action.reloadTasks] _ _ rfl rfl⟩

/-- C10: a successful page receipt erases any stored load-error message —
the `TASKS_RECEIVED` case rebuilds the tasks record from only status, items
and `nextPageToken`, so the resulting record has no `lastErrorMessage`
field. -/
theorem page_received_clears_error (s : State) (rcvd : List Task) (tok : Option String) :
    (reducer s (.tasksReceived rcvd tok)).tasks.lastErrorMessage = none :=
  rfl

/-- C2 counterexample: `TASK_CREATED` with an absent temporary id is not a
no-op — from the initial state (whose items dictionary is empty),
`taskCreated "t1" "r1"` produces a state holding a phantom entry at key
`"r1"`, so the resulting state differs from the input state. -/
theorem absent_id_not_noop_cx :
    reducer initialState (.taskCreated "t1" "r1") ≠ initialState := by
  intro hEq
  have h2 := congrArg (fun st => st.tasks.items "r1") hEq
  simp [reducer, initialState, mapInsert, mapRemove, blankTask] at h2

/-- C2 amended: of the three absent-id cases, only `TASK_CREATE_FAILED` is a
no-op. `TASK_CREATED` with an absent temporary id inserts a fresh entry
`{_id: realId, isCreating: false}` (no text, no isComplete) at the real id,
and `EDIT_TASK` with an absent id inserts the patch itself as a new entry at
that id; in both cases all other keys are unchanged. -/
theorem absent_id_behavior (s : State) (tid rid eid : String) (e : Task)
    (m : Option String)
    (hT : s.tasks.items tid = none) (hE : s.tasks.items eid = none) :
    reducer s (.taskCreateFailed tid m) = s
    ∧ (reducer s (.taskCreated tid rid)).tasks.items rid =
        some { _id := some rid, text := none, isComplete := none, isCreating := some false }
    ∧ (∀ k, k ≠ rid → (reducer s (.taskCreated tid rid)).tasks.items k = s.tasks.items k)
    ∧ (reducer s (.editTask eid e)).tasks.items eid = some e
    ∧ ∀ k, k ≠ eid → (reducer s (.editTask eid e)).tasks.items k = s.tasks.items k := by
  have hrem : mapRemove s.tasks.items tid = s.tasks.items := by
    funext k
    by_cases hk : k = tid
    · subst hk
      rw [mapRemove_self, hT]
    · exact mapRemove_other _ _ _ hk
  refine ⟨?_, ?_, ?_, ?_, ?_⟩
  · show { s with tasks := { s.tasks with items := mapRemove s.tasks.items tid } } = s
    rw [hrem]
  · show mapInsert (mapRemove s.tasks.items tid) rid _ rid = _
    rw [mapInsert_self, hT]
    rfl
  · intro k hk
    show mapInsert (mapRemove s.tasks.items tid) rid _ k = _
    rw [mapInsert_other _ _ _ _ hk, hrem]
  · show mapInsert s.tasks.items eid _ eid = some e
    rw [mapInsert_self, hE]
    show some (mergeTask blankTask e) = some e
    rw [mergeTask_blank]
  · intro k hk
    show mapInsert s.tasks.items eid _ k = _
    rw [mapInsert_other _ _ _ _ hk]

/-- Witness for C2's amended statement at the initial state with concrete
ids and a concrete patch. -/
theorem absent_id_behavior_witness :
    reducer initialState (.taskCreateFailed "t1" none) = initialState
    ∧ (reducer initialState (.taskCreated "t1" "r1")).tasks.items "r1" =
        some { _id := some "r1", text := none, isComplete := none, isCreating := some false }
    ∧ (∀ k, k ≠ "r1" →
        (reducer initialState (.taskCreated "t1" "r1")).tasks.items k =
          initialState.tasks.items k)
    ∧ (reducer initialState
        (.editTask "e1" { _id := none, text := some "x", isComplete := none, isCreating := none })).tasks.items "e1" =
        some { _id := none, text := some "x", isComplete := none, isCreating := none }
    ∧ ∀ k, k ≠ "e1" →
        (reducer initialState
          (.editTask "e1" { _id := none, text := some "x", isComplete := none, isCreating := none })).tasks.items k =
          initialState.tasks.items k :=
  absent_id_behavior initialState "t1" "r1" "e1"
    { _id := none, text := some "x", isComplete := none, isCreating := none } none rfl rfl

/-- C3: `CREATE_NEW_TASK t1` followed by `TASK_CREATED t1 r1` (with `r1` a
distinct server id) leaves a task at key `r1` whose id is `r1`, whose
`isCreating` flag is false, and whose text and `isComplete` are those of the
optimistic task (the draft text and `false`); no entry remains at `t1`.
`CREATE_NEW_TASK t1` followed by `TASK_CREATE_FAILED t1` leaves no entry at
`t1` and all other keys as they started. -/
theorem optimistic_reconciliation (s : State) (t1 r1 : String) (h : t1 ≠ r1) :
    (reducer (reducer s (.createNewTask t1)) (.taskCreated t1 r1)).tasks.items r1 =
      some { _id := some r1, text := some s.newTask.text,
             isComplete := some false, isCreating := some false }
    ∧ (reducer (reducer s (.createNewTask t1)) (.taskCreated t1 r1)).tasks.items t1 = none
    ∧ ∀ m : Option String,
        (reducer (reducer s (.createNewTask t1)) (.taskCreateFailed t1 m)).tasks.items t1 = none
        ∧ ∀ k, k ≠ t1 →
            (reducer (reducer s (.createNewTask t1)) (.taskCreateFailed t1 m)).tasks.items k =
              s.tasks.items k := by
  refine ⟨?_, ?_, ?_⟩
  · have h1 : (reducer s (.createNewTask t1)).tasks.items t1 =
        some { _id := some t1, isComplete := some false,
               text := some s.newTask.text, isCreating := some true } :=
      mapInsert_self _ _ _
    show mapInsert (mapRemove (reducer s (.createNewTask t1)).tasks.items t1) r1 _ r1 = _
    rw [mapInsert_self, h1]
    rfl
  · show mapInsert (mapRemove (mapInsert s.tasks.items t1 _) t1) r1 _ t1 = none
    rw [mapInsert_other _ _ _ _ h, mapRemove_self]
  · intro m
    constructor
    · show mapRemove (mapInsert s.tasks.items t1 _) t1 t1 = none
      rw [mapRemove_self]
    · intro k hk
      show mapRemove (mapInsert s.tasks.items t1 _) t1 k = _
      rw [mapRemove_other _ _ _ hk, mapInsert_other _ _ _ _ hk]

/-- Witness for C3 at the initial state, the spec's example ids. -/
theorem optimistic_reconciliation_witness :
    (reducer (reducer initialState (.createNewTask "tmp-1")) (.taskCreated "tmp-1" "real-42")).tasks.items "real-42" =
      some { _id := some "real-42", text := some initialState.newTask.text,
             isComplete := some false, isCreating := some false }
    ∧ (reducer (reducer initialState (.createNewTask "tmp-1")) (.taskCreated "tmp-1" "real-42")).tasks.items "tmp-1" = none
    ∧ ∀ m : Option String,
        (reducer (reducer initialState (.createNewTask "tmp-1")) (.taskCreateFailed "tmp-1" m)).tasks.items "tmp-1" = none
        ∧ ∀ k, k ≠ "tmp-1" →
            (reducer (reducer initialState (.createNewTask "tmp-1")) (.taskCreateFailed "tmp-1" m)).tasks.items k =
              initialState.tasks.items k :=
  optimistic_reconciliation initialState "tmp-1" "real-42" (by decide)

/-- C6: `TASKS_RECEIVED` merges the received page into the existing items
dictionary: the status becomes `"LOADED"`, the `nextPageToken` field becomes
the carried cursor, every key not among the received items' keys still maps
to whatever it mapped to before (so successive pages accumulate, nothing is
replaced wholesale), and — when the received keys are duplicate-free — each
received item ends up stored at its own key, overwriting any previous
entry. -/
theorem page_received_merges (s : State) (rcvd : List Task) (tok : Option String) :
    (reducer s (.tasksReceived rcvd tok)).tasks.status = "LOADED"
    ∧ (reducer s (.tasksReceived rcvd tok)).tasks.nextPageToken = some tok
    ∧ (∀ k, k ∉ rcvd.map keyOf →
        (reducer s (.tasksReceived rcvd tok)).tasks.items k = s.tasks.items k)
    ∧ ((rcvd.map keyOf).Nodup → ∀ it ∈ rcvd,
        (reducer s (.tasksReceived rcvd tok)).tasks.items (keyOf it) = some it) := by
  refine ⟨rfl, rfl, ?_, ?_⟩
  · intro k hk
    exact mergeItems_notmem rcvd s.tasks.items k hk
  · intro hnd it hit
    exact mergeItems_mem_nodup rcvd s.tasks.items hnd it hit

/-- Witness for C6: a one-item page received in the initial state. -/
theorem page_received_merges_witness :
    (reducer initialState
      (.tasksReceived [{ _id := some "a", text := some "x", isComplete := some false, isCreating := some false }] (some "cur"))).tasks.status = "LOADED"
    ∧ (reducer initialState
        (.tasksReceived [{ _id := some "a", text := some "x", isComplete := some false, isCreating := some false }] (some "cur"))).tasks.items "zzz" =
        initialState.tasks.items "zzz"
    ∧ (reducer initialState
        (.tasksReceived [{ _id := some "a", text := some "x", isComplete := some false, isCreating := some false }] (some "cur"))).tasks.items
          (keyOf { _id := some "a", text := some "x", isComplete := some false, isCreating := some false }) =
        some { _id := some "a", text := some "x", isComplete := some false, isCreating := some false } :=
  ⟨(page_received_merges initialState _ (some "cur")).1,
   (page_received_merges initialState _ (some "cur")).2.2.1 "zzz" (by decide),
   (page_received_merges initialState _ (some "cur")).2.2.2 (by decide) _ (by decide)⟩

end TaskApp

namespace TaskApi

/-! ### Claim theorems for the API -/

/-- C4: with effective page size `N` and the matching records listed in
descending id order, the handler answers with exactly `N` items and the
encoded id of the `(N+1)`-th record as `nextPageToken` whenever an
`(N+1)`-th record exists, and with all matching records and a null
`nextPageToken` when at most `N` records match. -/
theorem pagination_lookahead (N : Nat) (matching : List (List Nat)) :
    (∀ r, matching.get? N = some r →
      (pageHandler N matching).1.length = N
      ∧ (pageHandler N matching).2 = some (idToBase64 r))
    ∧ (matching.length ≤ N →
      (pageHandler N matching).1 = matching
      ∧ (pageHandler N matching).2 = none) := by
  constructor
  · intro r hr
    have hlen : N < matching.length := by
      rcases List.get?_eq_some.mp hr with ⟨h, _⟩
      exact h
    constructor
    · show ((matching.take (N + 1)).take N).length = N
      rw [List.take_take, List.length_take]
      omega
    · show ((matching.take (N + 1)).get? N).map idToBase64 = some (idToBase64 r)
      rw [List.get?_take (Nat.lt_succ_self N), hr]
      rfl
  · intro hle
    have h1 : matching.take (N + 1) = matching := List.take_of_length_le (by omega)
    constructor
    · show (matching.take (N + 1)).take N = matching
      rw [h1]
      exact List.take_of_length_le hle
    · show ((matching.take (N + 1)).get? N).map idToBase64 = none
      rw [h1, List.get?_eq_none.mpr hle]
      rfl

/-- Witness for C4: page size 1 over two matching records (lookahead hit)
and page size 3 over the same two records (no further page). -/
theorem pagination_lookahead_witness :
    ((pageHandler 1 [[1], [2]]).1.length = 1
      ∧ (pageHandler 1 [[1], [2]]).2 = some (idToBase64 [2]))
    ∧ (pageHandler 3 [[1], [2]]).1 = [[1], [2]]
    ∧ (pageHandler 3 [[1], [2]]).2 = none :=
  ⟨(pagination_lookahead 1 [[1], [2]]).1 [2] rfl,
   ((pagination_lookahead 3 [[1], [2]]).2 (by decide)).1,
   ((pagination_lookahead 3 [[1], [2]]).2 (by decide)).2⟩

/-! ### Lemmas about the base64url code -/

theorem lookupIdx_spec (c : Char) : ∀ (l : List Char) (i n : Nat),
    lookupIdx l c i = some n → i ≤ n ∧ n - i < l.length ∧ l.getD (n - i) 'A' = c := by
  intro l
  induction l with
  | nil => intro i n h; cases h
  | cons a rest ih =>
    intro i n h
    by_cases hac : a = c
    · rw [lookupIdx, if_pos hac, Option.some.injEq] at h
      subst h
      refine ⟨Nat.le_refl i, by simp, ?_⟩
      simpa [Nat.sub_self] using hac
    · rw [lookupIdx, if_neg hac] at h
      obtain ⟨h1, h2, h3⟩ := ih (i + 1) n h
      refine ⟨by omega, by simp only [List.length_cons]; omega, ?_⟩
      have hni : n - i = (n - (i + 1)) + 1 := by omega
      rw [hni]
      simpa using h3

theorem charToSextet_lt (c : Char) (n : Nat) (h : charToSextet c = some n) : n < 64 := by
  obtain ⟨_, h2, _⟩ := lookupIdx_spec c b64Alphabet 0 n h
  have hlen : b64Alphabet.length = 64 := by decide
  omega

theorem sextetToChar_charToSextet (c : Char) (n : Nat) (h : charToSextet c = some n) :
    sextetToChar n = c := by
  obtain ⟨_, _, h3⟩ := lookupIdx_spec c b64Alphabet 0 n h
  simpa [sextetToChar] using h3

theorem charToSextet_sextetToChar : ∀ n, n < 64 → charToSextet (sextetToChar n) = some n := by
  decide

theorem mapM_charToSextet_bound : ∀ (s : List Char) (sx : List Nat),
    s.mapM charToSextet = some sx → ∀ n ∈ sx, n < 64 := by
  intro s
  induction s with
  | nil =>
    intro sx h n hn
    simp only [List.mapM_nil, pure, Option.some.injEq] at h
    subst h
    cases hn
  | cons c rest ih =>
    intro sx h n hn
    rw [List.mapM_cons] at h
    cases hc : charToSextet c with
    | none => rw [hc] at h; simp at h
    | some v =>
      rw [hc] at h
      cases hr : rest.mapM charToSextet with
      | none => rw [hr] at h; simp at h
      | some vs =>
        rw [hr] at h
        simp only [Option.bind_eq_bind, Option.some_bind, pure, Option.some.injEq] at h
        subst h
        rcases List.mem_cons.mp hn with h | h
        · subst h
          exact charToSextet_lt c n hc
        · exact ih vs hr n h

theorem mapM_charToSextet_chars : ∀ (s : List Char) (sx : List Nat),
    s.mapM charToSextet = some sx → sx.map sextetToChar = s := by
  intro s
  induction s with
  | nil =>
    intro sx h
    simp only [List.mapM_nil, pure, Option.some.injEq] at h
    subst h
    rfl
  | cons c rest ih =>
    intro sx h
    rw [List.mapM_cons] at h
    cases hc : charToSextet c with
    | none => rw [hc] at h; simp at h
    | some v =>
      rw [hc] at h
      cases hr : rest.mapM charToSextet with
      | none => rw [hr] at h; simp at h
      | some vs =>
        rw [hr] at h
        simp only [Option.bind_eq_bind, Option.some_bind, pure, Option.some.injEq] at h
        subst h
        rw [List.map_cons, ih vs hr, sextetToChar_charToSextet c v hc]

theorem nodeCharValue_sextetToChar : ∀ n, n < 64 → nodeCharValue (sextetToChar n) = some n := by
  decide

theorem nodeCharValue_of_charToSextet (c : Char) (v : Nat) (h : charToSextet c = some v) :
    nodeCharValue c = some v := by
  by_cases h1 : c = '+'
  · subst h1
    have hplus : charToSextet '+' = none := by decide
    rw [hplus] at h
    cases h
  · by_cases h2 : c = '/'
    · subst h2
      have hslash : charToSextet '/' = none := by decide
      rw [hslash] at h
      cases h
    · simpa [nodeCharValue, h1, h2] using h

theorem filterMap_nodeCharValue_map : ∀ sx : List Nat, (∀ n ∈ sx, n < 64) →
    (sx.map sextetToChar).filterMap nodeCharValue = sx := by
  intro sx
  induction sx with
  | nil => intro _; rfl
  | cons v vs ih =>
    intro hb
    rw [List.map_cons, List.filterMap_cons,
        nodeCharValue_sextetToChar v (hb v (List.mem_cons_self v vs)),
        ih (fun n hn => hb n (List.mem_cons_of_mem v hn))]

theorem filterMap_nodeCharValue_of_mapM : ∀ (s : List Char) (sx : List Nat),
    s.mapM charToSextet = some sx → s.filterMap nodeCharValue = sx := by
  intro s
  induction s with
  | nil =>
    intro sx h
    simp only [List.mapM_nil, pure, Option.some.injEq] at h
    subst h
    rfl
  | cons c rest ih =>
    intro sx h
    rw [List.mapM_cons] at h
    cases hc : charToSextet c with
    | none => rw [hc] at h; simp at h
    | some v =>
      rw [hc] at h
      cases hr : rest.mapM charToSextet with
      | none => rw [hr] at h; simp at h
      | some vs =>
        rw [hr] at h
        simp only [Option.bind_eq_bind, Option.some_bind, pure, Option.some.injEq] at h
        subst h
        rw [List.filterMap_cons, nodeCharValue_of_charToSextet c v hc, ih vs hr]

theorem bytesToSextets_lt : ∀ bytes : List Nat, (∀ b ∈ bytes, b < 256) →
    ∀ n ∈ bytesToSextets bytes, n < 64 := by
  intro bytes
  induction bytes using bytesToSextets.induct with
  | case1 a b c rest ih =>
    intro hb n hn
    have ha1 : a < 256 := hb a (by simp)
    have hb1 : b < 256 := hb b (by simp)
    have hc1 : c < 256 := hb c (by simp)
    simp only [bytesToSextets, List.mem_cons] at hn
    rcases hn with h | h | h | h | h
    · omega
    · omega
    · omega
    · omega
    · exact ih (fun x hx => hb x (by simp [hx])) n h
  | case2 a b =>
    intro hb n hn
    have ha1 : a < 256 := hb a (by simp)
    have hb1 : b < 256 := hb b (by simp)
    simp only [bytesToSextets, List.mem_cons] at hn
    rcases hn with h | h | h | h
    · omega
    · omega
    · omega
    · cases h
  | case3 a =>
    intro hb n hn
    have ha1 : a < 256 := hb a (by simp)
    simp only [bytesToSextets, List.mem_cons] at hn
    rcases hn with h | h | h
    · omega
    · omega
    · cases h
  | case4 =>
    intro _ n hn
    cases hn

theorem lenientSextetsToBytes_bytesToSextets : ∀ bytes : List Nat, (∀ b ∈ bytes, b < 256) →
    bytes.length % 3 = 0 → lenientSextetsToBytes (bytesToSextets bytes) = bytes := by
  intro bytes
  induction bytes using bytesToSextets.induct with
  | case1 a b c rest ih =>
    intro hb hlen
    have ha1 : a < 256 := hb a (by simp)
    have hb1 : b < 256 := hb b (by simp)
    have hc1 : c < 256 := hb c (by simp)
    have hlen2 : rest.length % 3 = 0 := by
      simp only [List.length_cons] at hlen
      omega
    simp only [bytesToSextets, lenientSextetsToBytes]
    rw [ih (fun x hx => hb x (by simp [hx])) hlen2]
    simp only [List.cons.injEq]
    exact ⟨by omega, by omega, by omega, trivial⟩
  | case2 a b =>
    intro _ hlen
    simp at hlen
  | case3 a =>
    intro _ hlen
    simp at hlen
  | case4 =>
    intro _ _
    rfl

theorem lenientSextetsToBytes_lt : ∀ sx : List Nat, (∀ n ∈ sx, n < 64) →
    ∀ b ∈ lenientSextetsToBytes sx, b < 256 := by
  intro sx
  induction sx using lenientSextetsToBytes.induct with
  | case1 w x y z rest ih =>
    intro hs b hbm
    have hw : w < 64 := hs w (by simp)
    have hx : x < 64 := hs x (by simp)
    have hy : y < 64 := hs y (by simp)
    have hz : z < 64 := hs z (by simp)
    simp only [lenientSextetsToBytes, List.mem_cons] at hbm
    rcases hbm with h | h | h | h
    · omega
    · omega
    · omega
    · exact ih (fun n hn => hs n (by simp [hn])) b h
  | case2 w x y =>
    intro hs b hbm
    have hw : w < 64 := hs w (by simp)
    have hx : x < 64 := hs x (by simp)
    have hy : y < 64 := hs y (by simp)
    simp only [lenientSextetsToBytes, List.mem_cons] at hbm
    rcases hbm with h | h | h
    · omega
    · omega
    · cases h
  | case3 w x =>
    intro hs b hbm
    have hw : w < 64 := hs w (by simp)
    have hx : x < 64 := hs x (by simp)
    simp only [lenientSextetsToBytes, List.mem_cons] at hbm
    rcases hbm with h | h
    · omega
    · cases h
  | case4 w =>
    intro _ b hbm
    cases hbm
  | case5 =>
    intro _ b hbm
    cases hbm

theorem lenientSextetsToBytes_length : ∀ sx : List Nat, sx.length % 4 = 0 →
    (lenientSextetsToBytes sx).length = 3 * (sx.length / 4) := by
  intro sx
  induction sx using lenientSextetsToBytes.induct with
  | case1 w x y z rest ih =>
    intro hlen
    have hlen2 : rest.length % 4 = 0 := by
      simp only [List.length_cons] at hlen
      omega
    simp only [lenientSextetsToBytes, List.length_cons]
    rw [ih hlen2]
    omega
  | case2 w x y =>
    intro hlen
    simp at hlen
  | case3 w x =>
    intro hlen
    simp at hlen
  | case4 w =>
    intro hlen
    simp at hlen
  | case5 =>
    intro _
    rfl

theorem bytesToSextets_lenientSextetsToBytes : ∀ sx : List Nat, (∀ n ∈ sx, n < 64) →
    sx.length % 4 = 0 → bytesToSextets (lenientSextetsToBytes sx) = sx := by
  intro sx
  induction sx using lenientSextetsToBytes.induct with
  | case1 w x y z rest ih =>
    intro hs hlen
    have hw : w < 64 := hs w (by simp)
    have hx : x < 64 := hs x (by simp)
    have hy : y < 64 := hs y (by simp)
    have hz : z < 64 := hs z (by simp)
    have hlen2 : rest.length % 4 = 0 := by
      simp only [List.length_cons] at hlen
      omega
    simp only [lenientSextetsToBytes, bytesToSextets]
    rw [ih (fun n hn => hs n (by simp [hn])) hlen2]
    simp only [List.cons.injEq]
    exact ⟨by omega, by omega, by omega, by omega, trivial⟩
  | case2 w x y =>
    intro _ hlen
    simp at hlen
  | case3 w x =>
    intro _ hlen
    simp at hlen
  | case4 w =>
    intro _ hlen
    simp at hlen
  | case5 =>
    intro _ _
    rfl

theorem hexVal_hexDigits : ∀ n, n < 16 → hexVal (hexDigits.getD n '0') = n := by
  decide

theorem isHexDigit_hexDigits : ∀ n, n < 16 → isHexDigit (hexDigits.getD n '0') = true := by
  decide

theorem hexToBytes_bytesToHex : ∀ bytes : List Nat, (∀ b ∈ bytes, b < 256) →
    hexToBytes (bytesToHex bytes) = bytes := by
  intro bytes
  induction bytes with
  | nil => intro _; rfl
  | cons b rest ih =>
    intro hb
    have hb1 : b < 256 := hb b (by simp)
    simp only [bytesToHex, hexToBytes]
    rw [hexVal_hexDigits (b / 16) (by omega), hexVal_hexDigits (b % 16) (by omega),
        ih (fun x hx => hb x (by simp [hx]))]
    simp only [List.cons.injEq]
    exact ⟨by omega, trivial⟩

theorem bytesToHex_length : ∀ bytes : List Nat, (bytesToHex bytes).length = 2 * bytes.length := by
  intro bytes
  induction bytes with
  | nil => rfl
  | cons b rest ih =>
    simp only [bytesToHex, List.length_cons]
    rw [ih]
    omega

theorem bytesToHex_hex : ∀ bytes : List Nat, (∀ b ∈ bytes, b < 256) →
    (bytesToHex bytes).all isHexDigit = true := by
  intro bytes
  induction bytes with
  | nil => intro _; rfl
  | cons b rest ih =>
    intro hb
    have hb1 : b < 256 := hb b (by simp)
    simp only [bytesToHex, List.all_cons, Bool.and_eq_true]
    exact ⟨isHexDigit_hexDigits (b / 16) (by omega),
           isHexDigit_hexDigits (b % 16) (by omega),
           ih (fun x hx => hb x (by simp [hx]))⟩

theorem objectIdOfString_hex (bytes : List Nat) (hlen : bytes.length = 12)
    (hb : ∀ b ∈ bytes, b < 256) :
    objectIdOfString (bytesToHex bytes) = some bytes := by
  have h24 : (bytesToHex bytes).length = 24 := by
    rw [bytesToHex_length, hlen]
  simp only [objectIdOfString]
  rw [if_neg (by omega), if_pos ⟨h24, bytesToHex_hex bytes hb⟩,
      hexToBytes_bytesToHex bytes hb]

/-- C5 counterexample: the malformed-rejection clause fails on the code. The
17-character token of seventeen `A`s is malformed — it is the encoding of no
id, every encoded token having 16 characters — yet `base64ToId` accepts it:
Node's lenient decoder silently drops the 17th character's bits and yields
the valid all-zero ObjectID, whose re-encoding is a different token (so the
`encode (decode x) = x` round trip also fails at this accepted token). -/
theorem cursor_roundtrip_cx :
    base64ToId (List.replicate 17 'A') = some (List.replicate 12 0)
    ∧ idToBase64 (List.replicate 12 0) ≠ List.replicate 17 'A' := by
  constructor
  · decide
  · decide

/-- C5 amended: round trips hold for canonical data — decoding the encoding
of any 12-byte id returns that id, and every 16-character base64url token is
accepted and re-encodes to itself — but `base64ToId` does not reject all
malformed input: Node's lenient base64 decoding drops surplus characters and
trailing bits (and the `ObjectID` constructor also accepts 12-character
strings), so some malformed tokens decode to valid ids. -/
theorem cursor_lenient_roundtrip :
    (∀ id : List Nat, id.length = 12 → (∀ b ∈ id, b < 256) →
      base64ToId (idToBase64 id) = some id)
    ∧ ∀ (s : List Char) (sx : List Nat), s.mapM charToSextet = some sx →
        s.length = 16 →
        ∃ id, base64ToId s = some id ∧ idToBase64 id = s := by
  constructor
  · intro id hlen hb
    have hsx : ∀ n ∈ bytesToSextets id, n < 64 := bytesToSextets_lt id hb
    have h1 : (idToBase64 id).filterMap nodeCharValue = bytesToSextets id :=
      filterMap_nodeCharValue_map (bytesToSextets id) hsx
    simp only [base64ToId]
    rw [h1, lenientSextetsToBytes_bytesToSextets id hb (by omega)]
    exact objectIdOfString_hex id hlen hb
  · intro s sx hmap hslen
    have hb64 : ∀ n ∈ sx, n < 64 := mapM_charToSextet_bound s sx hmap
    have hchars : sx.map sextetToChar = s := mapM_charToSextet_chars s sx hmap
    have hsxlen : sx.length = 16 := by
      have hl := congrArg List.length hchars
      rw [List.length_map] at hl
      omega
    have hfm : s.filterMap nodeCharValue = sx := filterMap_nodeCharValue_of_mapM s sx hmap
    have hblen : (lenientSextetsToBytes sx).length = 12 := by
      rw [lenientSextetsToBytes_length sx (by omega)]
      omega
    have hbb : ∀ b ∈ lenientSextetsToBytes sx, b < 256 := lenientSextetsToBytes_lt sx hb64
    refine ⟨lenientSextetsToBytes sx, ?_, ?_⟩
    · simp only [base64ToId]
      rw [hfm]
      exact objectIdOfString_hex _ hblen hbb
    · simp only [idToBase64]
      rw [bytesToSextets_lenientSextetsToBytes sx hb64 (by omega), hchars]

/-- Witness for C5's amended statement: the all-zero id and the sixteen-`A`
token. -/
theorem cursor_lenient_roundtrip_witness :
    base64ToId (idToBase64 (List.replicate 12 0)) = some (List.replicate 12 0)
    ∧ ∃ id, base64ToId (List.replicate 16 'A') = some id
        ∧ idToBase64 id = List.replicate 16 'A' :=
  ⟨cursor_lenient_roundtrip.1 (List.replicate 12 0) (by decide) (by decide),
   cursor_lenient_roundtrip.2 (List.replicate 16 'A') (List.replicate 16 0)
     (by decide) (by decide)⟩

end TaskApi
